import Mathlib

/-!
Verification development for the dialogue-editor Unreal plugin
(`DialogueRuntime` / `DialogueEditor` modules).

The runtime headers declare the data model in full; several algorithm
bodies (the variable-store shadow mechanics, the branch-exploration
engine, the flow commit path) exist only as declarations, and those are
modelled here from the written specification, as marked on each such
definition.  Everything else (the `ShadowedOperation` template body,
`FDialogueId::ToString`/`FromString`, `FDialogueAssetGenerator::
ProcessConnections`, `FDialogueBranch::GetTarget`) is translated
directly from the source.
-/

namespace DialogueEditor

/-! ## Variable store data model (DialogueGlobalVariables.h) -/

/-- A dialogue variable value: the three concrete variable classes
(`UDialogueBoolVariable`, `UDialogueIntVariable`, `UDialogueStringVariable`)
carry a `bool`, `int32` or `FString` payload. -/
inductive DialogueValue where
  | boolVal (b : Bool)
  | intVal (i : Int)
  | strVal (s : String)
  deriving DecidableEq

/-- A dialogue variable: `VariableName`, the live `Value`, and the
`ShadowStack` used for speculative execution (DialogueGlobalVariables.h,
fields of the `UDialogueVariable` subclasses). -/
structure DialogueVariable where
  name : String
  value : DialogueValue
  shadowStack : List DialogueValue
  deriving DecidableEq

/-- A namespace: `Name` plus its variable map.  The map is modelled as an
association list keyed by the short variable name, preserving insertion
order (the spec requires insertion order only for enumeration). -/
structure DialogueVariableNamespace where
  name : String
  Variables : List (String × DialogueVariable)
  deriving DecidableEq

/-- Class `UDialogueGlobalVariables`: the namespace map plus the single
`ShadowLevel` counter. -/
structure DialogueGlobalVariables where
  namespaces : List (String × DialogueVariableNamespace)
  shadowLevel : Nat
  deriving DecidableEq

/-- Split a character list on a separator (used to split `Namespace.Variable`
names at the dot). -/
def splitChars (sep : Char) : List Char → List (List Char)
  | [] => [[]]
  | c :: rest =>
      let r := splitChars sep rest
      if c = sep then [] :: r
      else
        match r with
        | [] => [[c]]
        | x :: xs => (c :: x) :: xs

/-- Modelled from the spec: `ParseVariableName` splits a full
`Namespace.Variable` name into its two components; any other shape fails
(the body of the static helper is not in the runtime sources). -/
def ParseVariableName (full : String) : Option (String × String) :=
  match (splitChars '.' full.toList).map (fun l => String.mk l) with
  | [nsName, varName] => some (nsName, varName)
  | _ => none

/-- Variable lookup over a namespace list (the namespace resolution step of
`UDialogueGlobalVariables::GetVariable`). -/
def lookupVar (nss : List (String × DialogueVariableNamespace)) (full : String) :
    Option DialogueVariable :=
  match ParseVariableName full with
  | none => none
  | some (nsName, varName) =>
    match (nss.find? (fun p => p.1 == nsName)).map Prod.snd with
    | none => none
    | some nsp => (nsp.Variables.find? (fun q => q.1 == varName)).map Prod.snd

/-- Modelled from the spec: `UDialogueGlobalVariables::GetVariable` resolves
a full name to a variable, or to nothing when the namespace or variable
does not exist (its body is not in the runtime sources). -/
def GetVariable (gv : DialogueGlobalVariables) (full : String) : Option DialogueVariable :=
  lookupVar gv.namespaces full

/-- The live value a caller observes for a full variable name. -/
def liveValue (gv : DialogueGlobalVariables) (full : String) : Option DialogueValue :=
  (GetVariable gv full).map DialogueVariable.value

/-- Update the live value of one variable, leaving its shadow stack and
everything else untouched; a miss is a no-op at this raw level (the
fallible setters below report the miss). -/
def setVarRaw (gv : DialogueGlobalVariables) (full : String) (val : DialogueValue) :
    DialogueGlobalVariables :=
  match ParseVariableName full with
  | none => gv
  | some (nsName, varName) =>
    { gv with namespaces := gv.namespaces.map (fun p =>
        if p.1 = nsName then
          (p.1, { p.2 with Variables := p.2.Variables.map (fun q =>
            if q.1 = varName then (q.1, { q.2 with value := val }) else q) })
        else p) }

/-! ### Shadow push / pop (spec-modelled bodies of `PushState` / `PopState`) -/

/-- Snapshot a variable's current value onto its shadow stack. -/
def pushVar (v : DialogueVariable) : DialogueVariable :=
  { v with shadowStack := v.value :: v.shadowStack }

/-- Restore a variable's value from the top of its shadow stack. -/
def popVar (v : DialogueVariable) : DialogueVariable :=
  match v.shadowStack with
  | [] => v
  | top :: rest => { v with value := top, shadowStack := rest }

/-- Map a per-variable transformation over a variable list. -/
def mapVarsList (f : DialogueVariable → DialogueVariable)
    (vs : List (String × DialogueVariable)) : List (String × DialogueVariable) :=
  vs.map (fun q => (q.1, f q.2))

/-- Map a per-variable transformation over a namespace list. -/
def mapVarsNS (f : DialogueVariable → DialogueVariable)
    (nss : List (String × DialogueVariableNamespace)) :
    List (String × DialogueVariableNamespace) :=
  nss.map (fun p => (p.1, { p.2 with Variables := mapVarsList f p.2.Variables }))

/-- Modelled from the spec: `UDialogueGlobalVariables::PushState(Level)`
snapshots every variable's current value onto its shadow stack and records
the new shadow level (the body is not in the runtime sources; the spec
allows lazy snapshotting but requires it to be observably identical to
this eager form). -/
def PushState (gv : DialogueGlobalVariables) (level : Nat) : DialogueGlobalVariables :=
  { namespaces := mapVarsNS pushVar gv.namespaces, shadowLevel := level }

/-- Modelled from the spec: `UDialogueGlobalVariables::PopState(Level)`
restores every variable's value from the top of its shadow stack and
decrements the shadow level (the body is not in the runtime sources). -/
def PopState (gv : DialogueGlobalVariables) (level : Nat) : DialogueGlobalVariables :=
  { namespaces := mapVarsNS popVar gv.namespaces, shadowLevel := level - 1 }

/-! ### Store shape: everything except the live values -/

/-- The shape of one variable entry: key, name and shadow stack (everything
but the live value). -/
def varShape (q : String × DialogueVariable) : String × String × List DialogueValue :=
  (q.1, q.2.name, q.2.shadowStack)

/-- The shape of one namespace entry. -/
def nsShape (p : String × DialogueVariableNamespace) :
    String × String × List (String × String × List DialogueValue) :=
  (p.1, p.2.name, p.2.Variables.map varShape)

/-- The shape of a whole store: every structural component except the live
values and the shadow-level counter. -/
def varsShape (gv : DialogueGlobalVariables) :
    List (String × String × List (String × String × List DialogueValue)) :=
  gv.namespaces.map nsShape

theorem varShape_setEntry (varName : String) (val : DialogueValue)
    (q : String × DialogueVariable) :
    varShape (if q.1 = varName then (q.1, { q.2 with value := val }) else q) = varShape q := by
  by_cases h : q.1 = varName <;> simp [h, varShape]

theorem nsShape_setEntry (nsName varName : String) (val : DialogueValue)
    (p : String × DialogueVariableNamespace) :
    nsShape (if p.1 = nsName then
        (p.1, { p.2 with Variables := p.2.Variables.map (fun q =>
          if q.1 = varName then (q.1, { q.2 with value := val }) else q) })
      else p) = nsShape p := by
  by_cases h : p.1 = nsName
  · simp only [if_pos h, nsShape, List.map_map]
    refine congrArg (fun x => (p.1, p.2.name, x)) ?_
    apply List.map_congr_left
    intro q _
    simpa [Function.comp] using varShape_setEntry varName val q
  · simp [if_neg h]

theorem varsShape_setVarRaw (gv : DialogueGlobalVariables) (full : String)
    (val : DialogueValue) : varsShape (setVarRaw gv full val) = varsShape gv := by
  unfold setVarRaw
  cases hp : ParseVariableName full with
  | none => rfl
  | some pr =>
    obtain ⟨nsName, varName⟩ := pr
    simp only [varsShape, List.map_map]
    apply List.map_congr_left
    intro p _
    simpa [Function.comp] using nsShape_setEntry nsName varName val p

theorem setVarRaw_shadowLevel (gv : DialogueGlobalVariables) (full : String)
    (val : DialogueValue) : (setVarRaw gv full val).shadowLevel = gv.shadowLevel := by
  unfold setVarRaw
  cases ParseVariableName full with
  | none => rfl
  | some pr => obtain ⟨a, b⟩ := pr; rfl

/-! ### Pop restores a store whose shape matches a pushed store -/

theorem popVar_restore_list (cur base : List (String × DialogueVariable))
    (h : cur.map varShape = (mapVarsList pushVar base).map varShape) :
    mapVarsList popVar cur = base := by
  induction cur generalizing base with
  | nil =>
    cases base with
    | nil => rfl
    | cons b bs => simp [mapVarsList] at h
  | cons q qs ih =>
    cases base with
    | nil => simp [mapVarsList] at h
    | cons b bs =>
      simp only [mapVarsList, List.map_cons, List.cons.injEq] at h
      obtain ⟨hhead, htail⟩ := h
      simp only [varShape, pushVar, Prod.mk.injEq] at hhead
      obtain ⟨h1, h2, h3⟩ := hhead
      have htl : mapVarsList popVar qs = bs := by
        apply ih
        simpa [mapVarsList] using htail
      simp only [mapVarsList, List.map_cons] at htl ⊢
      rw [htl]
      refine congrArg (fun x => x :: bs) ?_
      obtain ⟨qk, qv⟩ := q
      obtain ⟨bk, bv⟩ := b
      obtain ⟨qn, qval, qstk⟩ := qv
      obtain ⟨bn, bval, bstk⟩ := bv
      simp only at h1 h2 h3
      subst h1 h2 h3
      simp [popVar]

theorem popNS_restore (cur base : List (String × DialogueVariableNamespace))
    (h : cur.map nsShape = (mapVarsNS pushVar base).map nsShape) :
    mapVarsNS popVar cur = base := by
  induction cur generalizing base with
  | nil =>
    cases base with
    | nil => rfl
    | cons b bs => simp [mapVarsNS] at h
  | cons p ps ih =>
    cases base with
    | nil => simp [mapVarsNS] at h
    | cons b bs =>
      simp only [mapVarsNS, List.map_cons, List.cons.injEq] at h
      obtain ⟨hhead, htail⟩ := h
      simp only [nsShape, Prod.mk.injEq] at hhead
      obtain ⟨h1, h2, h3⟩ := hhead
      have hvars : mapVarsList popVar p.2.Variables = b.2.Variables := by
        apply popVar_restore_list
        simpa [mapVarsList, varShape, pushVar] using h3
      have htl : mapVarsNS popVar ps = bs := by
        apply ih
        simpa [mapVarsNS] using htail
      simp only [mapVarsNS, List.map_cons] at htl ⊢
      rw [htl]
      refine congrArg (fun x => x :: bs) ?_
      obtain ⟨pk, pv⟩ := p
      obtain ⟨bk, bv⟩ := b
      obtain ⟨pn, pvars⟩ := pv
      obtain ⟨bn, bvars⟩ := bv
      simp only at h1 h2 hvars
      subst h1 h2
      simp [hvars]

/-- A `PopState` applied to any store whose shape matches the pushed
original restores exactly the original variables. -/
theorem popState_restore (cur gv : DialogueGlobalVariables) (level : Nat)
    (h : varsShape cur = varsShape { namespaces := mapVarsNS pushVar gv.namespaces,
                                     shadowLevel := cur.shadowLevel }) :
    (PopState cur level).namespaces = gv.namespaces := by
  simp only [PopState]
  exact popNS_restore cur.namespaces gv.namespaces h

/-! ## Balanced shadow / mutation operation sequences -/

/-- A balanced program over the variable store: direct value mutations,
sequencing, and a `shadow` block standing for a matched
`PushState(level+1)` … `PopState(level+1)` pair around its body (the
bracketing `UDialogueFlowPlayer::ShadowedOperation` performs on the
store).  Nested `shadow` blocks model nested push/push/pop/pop
sequences. -/
inductive VarOp where
  | set (fullName : String) (val : DialogueValue)
  | seq (a b : VarOp)
  | skip
  | shadow (op : VarOp)

/-- Run a balanced operation sequence against the store. -/
def runOp : VarOp → DialogueGlobalVariables → DialogueGlobalVariables
  | .set n v, gv => setVarRaw gv n v
  | .seq a b, gv => runOp b (runOp a gv)
  | .skip, gv => gv
  | .shadow op, gv =>
      PopState (runOp op (PushState gv (gv.shadowLevel + 1))) (gv.shadowLevel + 1)

theorem varsShape_pushState (gv : DialogueGlobalVariables) (level : Nat) :
    varsShape (PushState gv level) =
      varsShape { namespaces := mapVarsNS pushVar gv.namespaces, shadowLevel := level } := rfl

/-- Every balanced operation sequence preserves the store's shape (names,
namespaces and shadow stacks); in particular each `shadow` block restores
the store completely. -/
theorem varsShape_runOp : ∀ (op : VarOp) (gv : DialogueGlobalVariables),
    varsShape (runOp op gv) = varsShape gv := by
  intro op
  induction op with
  | set n v => intro gv; exact varsShape_setVarRaw gv n v
  | seq a b iha ihb => intro gv; rw [runOp, ihb, iha]
  | skip => intro gv; rfl
  | shadow op ih =>
    intro gv
    have hres : (runOp (VarOp.shadow op) gv).namespaces = gv.namespaces := by
      rw [runOp]
      apply popState_restore
      rw [ih (PushState gv (gv.shadowLevel + 1))]
      rfl
    show (runOp (VarOp.shadow op) gv).namespaces.map nsShape = varsShape gv
    rw [hres]; rfl

/-- A `shadow` block restores every variable of the store exactly. -/
theorem shadow_restores_namespaces (op : VarOp) (gv : DialogueGlobalVariables) :
    (runOp (VarOp.shadow op) gv).namespaces = gv.namespaces := by
  rw [runOp]
  apply popState_restore
  rw [varsShape_runOp op (PushState gv (gv.shadowLevel + 1))]
  rfl

/-- C1: For every variable in the global variable store and every balanced
sequence of `PushState` / value mutation / `PopState` operations
(including nested push/push/pop/pop sequences, modelled by nested
`VarOp.shadow` blocks whose semantics bracket their body with
`PushState`/`PopState`), the live value observed after the `PopState`
matching a given `PushState` equals the value the variable held
immediately before that `PushState`. -/
theorem shadow_roundtrip_restores_live_values
    (gv : DialogueGlobalVariables) (op : VarOp) (full : String) :
    liveValue (runOp (VarOp.shadow op) gv) full = liveValue gv full := by
  unfold liveValue GetVariable
  rw [shadow_restores_namespaces]

/-! ## Fallible accessors (GetBool/SetBool, GetInt/SetInt, GetString/SetString) -/

/-- The error taxonomy surfaced to callers. -/
inductive DialogueError where
  | unknownVariable
  | typeMismatch
  | unresolvedReference
  deriving DecidableEq

/-- Modelled from the spec: `UDialogueGlobalVariables::GetBool` fails with
`UnknownVariable` when the full name does not resolve (its body is not in
the runtime sources); it never silently returns a default. -/
def GetBool (gv : DialogueGlobalVariables) (full : String) : Except DialogueError Bool :=
  match GetVariable gv full with
  | none => .error .unknownVariable
  | some v =>
    match v.value with
    | .boolVal b => .ok b
    | _ => .error .typeMismatch

/-- Modelled from the spec: `UDialogueGlobalVariables::GetInt` (see
`GetBool`). -/
def GetInt (gv : DialogueGlobalVariables) (full : String) : Except DialogueError Int :=
  match GetVariable gv full with
  | none => .error .unknownVariable
  | some v =>
    match v.value with
    | .intVal i => .ok i
    | _ => .error .typeMismatch

/-- Modelled from the spec: `UDialogueGlobalVariables::GetString` (see
`GetBool`). -/
def GetString (gv : DialogueGlobalVariables) (full : String) : Except DialogueError String :=
  match GetVariable gv full with
  | none => .error .unknownVariable
  | some v =>
    match v.value with
    | .strVal s => .ok s
    | _ => .error .typeMismatch

/-- Modelled from the spec: `UDialogueGlobalVariables::SetBool` writes the
live value, failing with `UnknownVariable` on a resolution miss rather
than silently writing anything. -/
def SetBool (gv : DialogueGlobalVariables) (full : String) (b : Bool) :
    Except DialogueError DialogueGlobalVariables :=
  match GetVariable gv full with
  | none => .error .unknownVariable
  | some _ => .ok (setVarRaw gv full (.boolVal b))

/-- Modelled from the spec: `UDialogueGlobalVariables::SetInt` (see
`SetBool`). -/
def SetInt (gv : DialogueGlobalVariables) (full : String) (i : Int) :
    Except DialogueError DialogueGlobalVariables :=
  match GetVariable gv full with
  | none => .error .unknownVariable
  | some _ => .ok (setVarRaw gv full (.intVal i))

/-- Modelled from the spec: `UDialogueGlobalVariables::SetString` (see
`SetBool`). -/
def SetString (gv : DialogueGlobalVariables) (full : String) (s : String) :
    Except DialogueError DialogueGlobalVariables :=
  match GetVariable gv full with
  | none => .error .unknownVariable
  | some _ => .ok (setVarRaw gv full (.strVal s))

/-- C8: every get or set operation on the variable store whose full name
does not resolve to an existing namespace and variable fails with an
`UnknownVariable` error reported to the caller; none of the six
operations silently returns or writes a default value. -/
theorem unknown_variable_reported (gv : DialogueGlobalVariables) (full : String)
    (h : GetVariable gv full = none) :
    GetBool gv full = .error .unknownVariable ∧
    GetInt gv full = .error .unknownVariable ∧
    GetString gv full = .error .unknownVariable ∧
    (∀ b, SetBool gv full b = .error .unknownVariable) ∧
    (∀ i, SetInt gv full i = .error .unknownVariable) ∧
    (∀ s, SetString gv full s = .error .unknownVariable) := by
  refine ⟨?_, ?_, ?_, fun b => ?_, fun i => ?_, fun s => ?_⟩ <;>
    simp [GetBool, GetInt, GetString, SetBool, SetInt, SetString, h]

/-- Witness for C8 at a concrete store and name. -/
theorem unknown_variable_reported_witness :
    GetBool { namespaces := [], shadowLevel := 0 } "Quest.Done" = .error .unknownVariable ∧
    GetInt { namespaces := [], shadowLevel := 0 } "Quest.Done" = .error .unknownVariable ∧
    GetString { namespaces := [], shadowLevel := 0 } "Quest.Done" = .error .unknownVariable ∧
    (∀ b, SetBool { namespaces := [], shadowLevel := 0 } "Quest.Done" b
        = .error .unknownVariable) ∧
    (∀ i, SetInt { namespaces := [], shadowLevel := 0 } "Quest.Done" i
        = .error .unknownVariable) ∧
    (∀ s, SetString { namespaces := [], shadowLevel := 0 } "Quest.Done" s
        = .error .unknownVariable) :=
  unknown_variable_reported { namespaces := [], shadowLevel := 0 } "Quest.Done" (by decide)

/-! ## Graph data model (DialogueTypes.h, DialogueNode.h, DialoguePin.h) -/

/-- Enum `EDialoguePausableType` (DialogueTypes.h). -/
inductive EDialoguePausableType where
  | none
  | flowFragment
  | dialogue
  | dialogueFragment
  | hub
  | jump
  | condition
  | instruction
  | pin
  deriving DecidableEq

/-- Class `UDialogueConnection` (DialoguePin.h): a directed edge from an output
pin to one input pin of the target node. -/
structure DialogueConnection where
  targetNodeId : String
  targetPinIndex : Nat
  deriving DecidableEq

/-- Class `UDialogueInputPin`: the optional gating condition script (an absent
script gates nothing). -/
structure DialogueInputPin where
  script : Option String
  deriving DecidableEq

/-- Class `UDialogueOutputPin`: optional exit instruction script plus ordered
connections. -/
structure DialogueOutputPin where
  script : Option String
  connections : List DialogueConnection
  deriving DecidableEq

/-- The closed node-kind variant with per-kind payload
(the `UDialogueNode` subclasses in DialogueNode.h). -/
inductive DialogueNodeKind where
  | dialogue (autoTransition : Bool)
  | dialogueFragment (autoTransition : Bool)
  | flowFragment
  | hub
  | condition (expr : String)
  | instruction (expr : String)
  | jump (targetNodeId : String) (targetPinIndex : Nat)
  deriving DecidableEq

/-- A flow node: id, kind, and its ordered pins. -/
structure DialogueNode where
  id : String
  kind : DialogueNodeKind
  inputPins : List DialogueInputPin
  outputPins : List DialogueOutputPin
  deriving DecidableEq

/-- Function `GetPausableType` as overridden by each node class (DialogueNode.h). -/
def GetPausableType : DialogueNodeKind → EDialoguePausableType
  | .dialogue _ => .dialogue
  | .dialogueFragment _ => .dialogueFragment
  | .flowFragment => .flowFragment
  | .hub => .hub
  | .condition _ => .condition
  | .instruction _ => .instruction
  | .jump _ _ => .jump

/-- Whether the node is a dialogue configured to auto-transition
(`UDialogueDialogue::bAutoTransition`). -/
def isAutoTransition : DialogueNodeKind → Bool
  | .dialogue a => a
  | .dialogueFragment a => a
  | _ => false

/-- Whether the kind is a jump node. -/
def isJumpKind : DialogueNodeKind → Bool
  | .jump _ _ => true
  | _ => false

/-- The graph store: node lookup by id (`resolve(id)` of the Graph Store
contract; read-only during traversal). -/
def resolveNode (g : List DialogueNode) (nodeId : String) : Option DialogueNode :=
  g.find? (fun n => n.id == nodeId)

/-- Struct `FDialogueBranch` (DialogueFlowPlayer.h): the node path and the
validity flag. -/
structure FDialogueBranch where
  path : List DialogueNode
  bIsValid : Bool
  deriving DecidableEq

/-- Method `FDialogueBranch::GetTarget` (DialogueFlowPlayer.h): the last node in
the path, or nothing for an empty path. -/
def GetTarget (b : FDialogueBranch) : Option DialogueNode :=
  b.path.getLast?

/-- The script evaluator collaborator: condition evaluation reads the
store; instruction execution is a list of variable writes applied through
the store's set operation (the evaluator is pure with respect to
everything outside the variable store). -/
structure ScriptEvaluator where
  evalCond : String → DialogueGlobalVariables → Bool
  instrWrites : String → DialogueGlobalVariables → List (String × DialogueValue)

/-- Run an instruction expression for effect against the store. -/
def execInstr (ev : ScriptEvaluator) (expr : String) (gv : DialogueGlobalVariables) :
    DialogueGlobalVariables :=
  (ev.instrWrites expr gv).foldl (fun s w => setVarRaw s w.1 w.2) gv

theorem varsShape_execInstr (ev : ScriptEvaluator) (expr : String)
    (gv : DialogueGlobalVariables) : varsShape (execInstr ev expr gv) = varsShape gv := by
  unfold execInstr
  generalize ev.instrWrites expr gv = ws
  induction ws generalizing gv with
  | nil => rfl
  | cons w ws ih => rw [List.foldl_cons, ih, varsShape_setVarRaw]

/-- Per-player configuration (the `Setup` properties of
DialogueFlowPlayer.h, with the source's defaults). -/
structure FlowPlayerConfig where
  PauseOn : List EDialoguePausableType :=
    [.dialogueFragment, .dialogue, .flowFragment]
  bIgnoreInvalidBranches : Bool := true
  ExploreLimit : Nat := 128
  ShadowLevelLimit : Nat := 10

/-- Diagnostics surfaced to the caller (logs / warning channel). -/
inductive DialogueDiagnostic where
  | depthLimitExceeded
  | shadowLimitExceeded
  | unresolvedReference (nodeId : String)
  deriving DecidableEq

/-! ## ShadowedOperation (translated from the template body in
DialogueFlowPlayer.h) -/

/-- Observable push/pop events on the variable store, used to state the
LIFO bracketing discipline. -/
inductive ShadowEvent where
  | pushEv (level : Nat)
  | popEv (level : Nat)
  deriving DecidableEq

/-- Mutable flow-player state (cursor, available branches, the player's
`ShadowLevel` counter). -/
structure FlowPlayerState where
  shadowLevel : Nat
  cursor : Option DialogueNode
  availableBranches : List FDialogueBranch
  deriving DecidableEq

/-- Result of a player operation: updated player and store, plus the
diagnostics it reported and the store push/pop events it performed. -/
structure PlayerResult where
  player : FlowPlayerState
  store : DialogueGlobalVariables
  diags : List DialogueDiagnostic
  events : List ShadowEvent
  deriving DecidableEq

/-- Method `UDialogueFlowPlayer::ShadowedOperation` translated from the template
body in DialogueFlowPlayer.h: if the player's shadow level has reached
`ShadowLevelLimit` the operation is aborted with a warning; otherwise the
level is incremented, `PushState` is called with the new level, the
operation runs, `PopState` is called with the player's then-current
level, and the level is decremented if still positive.  (The source's
early return when no variable store exists is not modelled: the store is
a value here.  The start/end delegate broadcasts are represented by the
push/pop events.) -/
def ShadowedOperation (cfg : FlowPlayerConfig)
    (operation : FlowPlayerState → DialogueGlobalVariables → PlayerResult)
    (ps : FlowPlayerState) (gv : DialogueGlobalVariables) : PlayerResult :=
  if cfg.ShadowLevelLimit ≤ ps.shadowLevel then
    { player := ps, store := gv, diags := [.shadowLimitExceeded], events := [] }
  else
    let ps1 : FlowPlayerState := { ps with shadowLevel := ps.shadowLevel + 1 }
    let gv1 := PushState gv ps1.shadowLevel
    let r := operation ps1 gv1
    let gv3 := PopState r.store r.player.shadowLevel
    let ps3 : FlowPlayerState :=
      if 0 < r.player.shadowLevel then
        { r.player with shadowLevel := r.player.shadowLevel - 1 }
      else r.player
    { player := ps3, store := gv3, diags := r.diags,
      events := .pushEv ps1.shadowLevel :: (r.events ++ [.popEv r.player.shadowLevel]) }

/-- C4: a `ShadowedOperation` invoked while the player's shadow level has
reached the configured `ShadowLevelLimit` aborts: the supplied operation
is not executed (the result does not depend on it), no `PushState` or
`PopState` event is performed on the variable store, the player state —
in particular the shadow level — is unchanged, and a diagnostic is
reported. -/
theorem shadowed_operation_limit_aborts (cfg : FlowPlayerConfig)
    (operation : FlowPlayerState → DialogueGlobalVariables → PlayerResult)
    (ps : FlowPlayerState) (gv : DialogueGlobalVariables)
    (h : cfg.ShadowLevelLimit ≤ ps.shadowLevel) :
    ShadowedOperation cfg operation ps gv =
      { player := ps, store := gv, diags := [.shadowLimitExceeded], events := [] } := by
  unfold ShadowedOperation
  rw [if_pos h]

/-- Witness for C4: a player at the default limit (10) with an operation
that would otherwise mutate everything. -/
theorem shadowed_operation_limit_aborts_witness :
    ShadowedOperation { }
        (fun p s => { player := { p with shadowLevel := 99 }, store := s,
                      diags := [], events := [.pushEv 42] })
        { shadowLevel := 10, cursor := Option.none, availableBranches := [] }
        { namespaces := [], shadowLevel := 0 } =
      { player := { shadowLevel := 10, cursor := Option.none, availableBranches := [] },
        store := { namespaces := [], shadowLevel := 0 },
        diags := [.shadowLimitExceeded], events := [] } :=
  shadowed_operation_limit_aborts { }
    (fun p s => { player := { p with shadowLevel := 99 }, store := s,
                  diags := [], events := [.pushEv 42] })
    { shadowLevel := 10, cursor := Option.none, availableBranches := [] }
    { namespaces := [], shadowLevel := 0 } (by decide)

/-! ## Nested shadowed operations: LIFO bracketing and net-zero level (C5) -/

/-- Player-level operations that may be nested inside a
`ShadowedOperation`: store mutations, sequencing, and further
`ShadowedOperation` calls. -/
inductive PlayerOp where
  | mutate (fullName : String) (val : DialogueValue)
  | seqOp (a b : PlayerOp)
  | noOp
  | shadowed (op : PlayerOp)

/-- Run a player operation; nested `shadowed` operations go through
`ShadowedOperation` exactly as in the source. -/
def runPlayerOp (cfg : FlowPlayerConfig) :
    PlayerOp → FlowPlayerState → DialogueGlobalVariables → PlayerResult
  | .mutate n v, ps, gv =>
      { player := ps, store := setVarRaw gv n v, diags := [], events := [] }
  | .noOp, ps, gv => { player := ps, store := gv, diags := [], events := [] }
  | .seqOp a b, ps, gv =>
      let r := runPlayerOp cfg a ps gv
      let r2 := runPlayerOp cfg b r.player r.store
      { player := r2.player, store := r2.store,
        diags := r.diags ++ r2.diags, events := r.events ++ r2.events }
  | .shadowed op, ps, gv => ShadowedOperation cfg (runPlayerOp cfg op) ps gv

/-- Push/pop event sequences that are balanced in strict LIFO order, each
push at level `L` matched by exactly one pop at the same level `L`. -/
inductive BalancedEvents : List ShadowEvent → Prop where
  | nil : BalancedEvents []
  | wrap (level : Nat) (t : List ShadowEvent) :
      BalancedEvents t →
      BalancedEvents (.pushEv level :: (t ++ [.popEv level]))
  | append (s t : List ShadowEvent) :
      BalancedEvents s → BalancedEvents t → BalancedEvents (s ++ t)

/-- Every player operation preserves the player's shadow level and
produces a balanced push/pop event trace. -/
theorem runPlayerOp_level_balanced (cfg : FlowPlayerConfig) :
    ∀ (op : PlayerOp) (ps : FlowPlayerState) (gv : DialogueGlobalVariables),
      (runPlayerOp cfg op ps gv).player.shadowLevel = ps.shadowLevel ∧
      BalancedEvents (runPlayerOp cfg op ps gv).events := by
  intro op
  induction op with
  | mutate n v => intro ps gv; exact ⟨rfl, .nil⟩
  | noOp => intro ps gv; exact ⟨rfl, .nil⟩
  | seqOp a b iha ihb =>
    intro ps gv
    obtain ⟨ha, hae⟩ := iha ps gv
    obtain ⟨hb, hbe⟩ :=
      ihb (runPlayerOp cfg a ps gv).player (runPlayerOp cfg a ps gv).store
    refine ⟨?_, ?_⟩
    · show (runPlayerOp cfg b _ _).player.shadowLevel = ps.shadowLevel
      rw [hb, ha]
    · exact .append _ _ hae hbe
  | shadowed op ih =>
    intro ps gv
    show (ShadowedOperation cfg (runPlayerOp cfg op) ps gv).player.shadowLevel
        = ps.shadowLevel ∧
      BalancedEvents (ShadowedOperation cfg (runPlayerOp cfg op) ps gv).events
    unfold ShadowedOperation
    by_cases hlim : cfg.ShadowLevelLimit ≤ ps.shadowLevel
    · rw [if_pos hlim]
      exact ⟨rfl, .nil⟩
    · rw [if_neg hlim]
      obtain ⟨hlvl, hevs⟩ :=
        ih { ps with shadowLevel := ps.shadowLevel + 1 }
           (PushState gv (ps.shadowLevel + 1))
      simp only
      rw [hlvl]
      simp only
      refine ⟨?_, ?_⟩
      · rw [if_pos (Nat.succ_pos ps.shadowLevel)]
        simp
      · have := BalancedEvents.wrap (ps.shadowLevel + 1) _ hevs
        simpa [hlvl] using this

/-- C5: every `ShadowedOperation` call — including nested calls triggered
from within the operation — leaves the player's shadow level equal to its
pre-call value on return, and its push/pop event trace is balanced in
strict LIFO order: each increment-and-`PushState(L)` is matched by
exactly one `PopState(L)` at the same level `L`, converging to a
net-zero push/pop count. -/
theorem shadowed_operation_balanced_net_zero (cfg : FlowPlayerConfig)
    (op : PlayerOp) (ps : FlowPlayerState) (gv : DialogueGlobalVariables) :
    (ShadowedOperation cfg (runPlayerOp cfg op) ps gv).player.shadowLevel
        = ps.shadowLevel ∧
    BalancedEvents (ShadowedOperation cfg (runPlayerOp cfg op) ps gv).events :=
  runPlayerOp_level_balanced cfg (.shadowed op) ps gv

/-! ## The Explore algorithm (spec-modelled body of
`UDialogueFlowPlayer::Explore`) -/

/-- Result of one exploration: the branches found, the store after the
exploration's speculative effects, and the diagnostics reported. -/
structure ExploreResult where
  branches : List FDialogueBranch
  store : DialogueGlobalVariables
  diags : List DialogueDiagnostic
  deriving DecidableEq

/-- Evaluate an input pin's gating condition; an absent script passes. -/
def evalPin (ev : ScriptEvaluator) (pin : DialogueInputPin)
    (gv : DialogueGlobalVariables) : Bool :=
  match pin.script with
  | Option.none => true
  | some e => ev.evalCond e gv

/-- Mark a branch as condition-failed. -/
def invalidate (b : FDialogueBranch) : FDialogueBranch :=
  { b with bIsValid := false }

/-- Record the traversed node at the front of a sub-branch's path. -/
def prependNode (n : DialogueNode) (b : FDialogueBranch) : FDialogueBranch :=
  { b with path := n :: b.path }

/-- All connections of a node's output pins, pins in index order and each
pin's connections in order. -/
def allConnections (n : DialogueNode) : List DialogueConnection :=
  n.outputPins.foldr (fun p acc => p.connections ++ acc) []

/-- Follow one connection: resolve the target node (a dangling target is a
dead connection, skipped); when `gated`, resolve the target input pin
(an invalid pin index is also dead) and evaluate its condition — on
failure the connection contributes nothing, unless the caller asked for
invalid branches, in which case the sub-exploration is kept tagged
invalid. -/
def exploreConnStep (ev : ScriptEvaluator) (g : List DialogueNode)
    (cfg : FlowPlayerConfig) (gated : Bool)
    (recurse : DialogueGlobalVariables → DialogueNode → ExploreResult)
    (gv : DialogueGlobalVariables) (c : DialogueConnection) : ExploreResult :=
  match resolveNode g c.targetNodeId with
  | Option.none => ⟨[], gv, []⟩
  | some t =>
    if gated then
      match t.inputPins.get? c.targetPinIndex with
      | Option.none => ⟨[], gv, []⟩
      | some pin =>
        if evalPin ev pin gv then recurse gv t
        else if cfg.bIgnoreInvalidBranches then ⟨[], gv, []⟩
        else
          let r := recurse gv t
          ⟨r.branches.map invalidate, r.store, r.diags⟩
    else recurse gv t

/-- Follow a connection list in order, threading the store (so an
instruction executed along one candidate is visible to conditions
evaluated later in the same lookahead) and accumulating branches and
diagnostics. -/
def exploreConns (ev : ScriptEvaluator) (g : List DialogueNode)
    (cfg : FlowPlayerConfig) (gated : Bool)
    (recurse : DialogueGlobalVariables → DialogueNode → ExploreResult) :
    DialogueGlobalVariables → List DialogueConnection → ExploreResult
  | gv, [] => ⟨[], gv, []⟩
  | gv, c :: rest =>
    let rc := exploreConnStep ev g cfg gated recurse gv c
    let rr := exploreConns ev g cfg gated recurse rc.store rest
    ⟨rc.branches ++ rr.branches, rr.store, rc.diags ++ rr.diags⟩

/-- Modelled from the spec: the body of `UDialogueFlowPlayer::Explore` is
not in the runtime sources; this is the spec's traversal, written on
explicit fuel.  A call at `Depth` runs with fuel
`ExploreLimit + 1 - Depth`, so zero fuel is exactly the spec's depth
guard `depth > exploreLimit` (return empty, report a diagnostic), and the
recursion depth is bounded by `ExploreLimit + 1`.  A node reached with
`includeCurrent` whose pausable type is in the pause mask terminates the
branch (auto-transition dialogues suppress this); otherwise Jump
redirects transparently into its resolved target, Condition gates its
output connections on its script, Instruction executes its script for
effect and continues, and the hub-like kinds enumerate their output
connections gated by the target input pins. -/
def exploreFuel (ev : ScriptEvaluator) (g : List DialogueNode)
    (cfg : FlowPlayerConfig) :
    Nat → DialogueGlobalVariables → DialogueNode → Bool → ExploreResult
  | 0, gv, _, _ => ⟨[], gv, [.depthLimitExceeded]⟩
  | fuel + 1, gv, node, includeCurrent =>
    if includeCurrent = true ∧ GetPausableType node.kind ∈ cfg.PauseOn ∧
        isAutoTransition node.kind = false then
      ⟨[⟨[node], true⟩], gv, []⟩
    else
      match node.kind with
      | .jump tgt _ =>
        match resolveNode g tgt with
        | Option.none => ⟨[], gv, [.unresolvedReference tgt]⟩
        | some t => exploreFuel ev g cfg fuel gv t true
      | .condition expr =>
        if ev.evalCond expr gv then
          let r := exploreConns ev g cfg false
            (fun s t => exploreFuel ev g cfg fuel s t true) gv (allConnections node)
          ⟨r.branches.map (prependNode node), r.store, r.diags⟩
        else if cfg.bIgnoreInvalidBranches then ⟨[], gv, []⟩
        else ⟨[⟨[node], false⟩], gv, []⟩
      | .instruction expr =>
        let r := exploreConns ev g cfg false
          (fun s t => exploreFuel ev g cfg fuel s t true)
          (execInstr ev expr gv) (allConnections node)
        ⟨r.branches.map (prependNode node), r.store, r.diags⟩
      | _ =>
        let r := exploreConns ev g cfg true
          (fun s t => exploreFuel ev g cfg fuel s t true) gv (allConnections node)
        ⟨r.branches.map (prependNode node), r.store, r.diags⟩

/-- Method `UDialogueFlowPlayer::Explore(Node, bShadowed, Depth, bIncludeCurrent)`
at its declared depth interface (see `exploreFuel` for the body). -/
def Explore (ev : ScriptEvaluator) (g : List DialogueNode) (cfg : FlowPlayerConfig)
    (gv : DialogueGlobalVariables) (node : DialogueNode) (depth : Nat)
    (includeCurrent : Bool) : ExploreResult :=
  exploreFuel ev g cfg (cfg.ExploreLimit + 1 - depth) gv node includeCurrent

/-! ### Exploration only mutates live values (shape preservation) -/

theorem varsShape_exploreConnStep (ev : ScriptEvaluator) (g : List DialogueNode)
    (cfg : FlowPlayerConfig) (gated : Bool)
    (recurse : DialogueGlobalVariables → DialogueNode → ExploreResult)
    (gv : DialogueGlobalVariables) (c : DialogueConnection)
    (hrec : ∀ s t, varsShape (recurse s t).store = varsShape s) :
    varsShape (exploreConnStep ev g cfg gated recurse gv c).store = varsShape gv := by
  unfold exploreConnStep
  cases hres : resolveNode g c.targetNodeId with
  | none => rfl
  | some t =>
    cases gated with
    | false => simpa using hrec gv t
    | true =>
      simp only
      cases hpin : t.inputPins.get? c.targetPinIndex with
      | none => rfl
      | some pin =>
        by_cases h1 : evalPin ev pin gv
        · simpa [h1] using hrec gv t
        · by_cases h2 : cfg.bIgnoreInvalidBranches
          · simp [h1, h2]
          · simpa [h1, h2] using hrec gv t

theorem varsShape_exploreConns (ev : ScriptEvaluator) (g : List DialogueNode)
    (cfg : FlowPlayerConfig) (gated : Bool)
    (recurse : DialogueGlobalVariables → DialogueNode → ExploreResult)
    (hrec : ∀ s t, varsShape (recurse s t).store = varsShape s) :
    ∀ (conns : List DialogueConnection) (gv : DialogueGlobalVariables),
      varsShape (exploreConns ev g cfg gated recurse gv conns).store = varsShape gv := by
  intro conns
  induction conns with
  | nil => intro gv; rfl
  | cons c rest ih =>
    intro gv
    rw [exploreConns]
    simp only
    rw [ih, varsShape_exploreConnStep ev g cfg gated recurse gv c hrec]

theorem varsShape_exploreFuel (ev : ScriptEvaluator) (g : List DialogueNode)
    (cfg : FlowPlayerConfig) :
    ∀ (fuel : Nat) (gv : DialogueGlobalVariables) (node : DialogueNode) (inc : Bool),
      varsShape (exploreFuel ev g cfg fuel gv node inc).store = varsShape gv := by
  intro fuel
  induction fuel with
  | zero => intro gv node inc; rfl
  | succ fuel ih =>
    intro gv node inc
    have hrec : ∀ s t, varsShape (exploreFuel ev g cfg fuel s t true).store = varsShape s :=
      fun s t => ih s t true
    rw [exploreFuel]
    split
    · rfl
    · split
      · split
        · rfl
        · exact ih gv _ true
      · split
        · simp only
          exact varsShape_exploreConns ev g cfg false _ hrec (allConnections node) gv
        · split
          · rfl
          · rfl
      · simp only
        rw [varsShape_exploreConns ev g cfg false _ hrec, varsShape_execInstr]
      · simp only
        exact varsShape_exploreConns ev g cfg true _ hrec (allConnections node) gv

/-! ### Branch paths never contain jump nodes (outside a jump pause mask) -/

/-- No node of the branch's path is a jump. -/
def jumpFreeBranch (b : FDialogueBranch) : Prop :=
  ∀ n ∈ b.path, isJumpKind n.kind = false

theorem jumpFree_invalidate (b : FDialogueBranch) (h : jumpFreeBranch b) :
    jumpFreeBranch (invalidate b) := h

theorem jumpFree_exploreConnStep (ev : ScriptEvaluator) (g : List DialogueNode)
    (cfg : FlowPlayerConfig) (gated : Bool)
    (recurse : DialogueGlobalVariables → DialogueNode → ExploreResult)
    (gv : DialogueGlobalVariables) (c : DialogueConnection)
    (hrec : ∀ s t, ∀ b ∈ (recurse s t).branches, jumpFreeBranch b) :
    ∀ b ∈ (exploreConnStep ev g cfg gated recurse gv c).branches, jumpFreeBranch b := by
  unfold exploreConnStep
  cases hres : resolveNode g c.targetNodeId with
  | none => intro b hb; simp at hb
  | some t =>
    cases gated with
    | false => simpa using hrec gv t
    | true =>
      simp only
      cases hpin : t.inputPins.get? c.targetPinIndex with
      | none => intro b hb; simp at hb
      | some pin =>
        by_cases h1 : evalPin ev pin gv
        · simpa [h1] using hrec gv t
        · by_cases h2 : cfg.bIgnoreInvalidBranches
          · intro b hb; simp [h1, h2] at hb
          · intro b hb
            simp only [if_true, if_neg h1, if_neg h2, List.mem_map] at hb
            obtain ⟨b0, hb0, rfl⟩ := hb
            exact jumpFree_invalidate b0 (hrec gv t b0 hb0)

theorem jumpFree_exploreConns (ev : ScriptEvaluator) (g : List DialogueNode)
    (cfg : FlowPlayerConfig) (gated : Bool)
    (recurse : DialogueGlobalVariables → DialogueNode → ExploreResult)
    (hrec : ∀ s t, ∀ b ∈ (recurse s t).branches, jumpFreeBranch b) :
    ∀ (conns : List DialogueConnection) (gv : DialogueGlobalVariables),
      ∀ b ∈ (exploreConns ev g cfg gated recurse gv conns).branches, jumpFreeBranch b := by
  intro conns
  induction conns with
  | nil => intro gv b hb; simp [exploreConns] at hb
  | cons c rest ih =>
    intro gv b hb
    rw [exploreConns] at hb
    simp only [List.mem_append] at hb
    cases hb with
    | inl h => exact jumpFree_exploreConnStep ev g cfg gated recurse gv c hrec b h
    | inr h => exact ih _ b h

theorem jumpFree_prepend (n : DialogueNode) (b : FDialogueBranch)
    (hn : isJumpKind n.kind = false) (hb : jumpFreeBranch b) :
    jumpFreeBranch (prependNode n b) := by
  intro m hm
  rcases List.mem_cons.mp hm with h | h
  · subst h; exact hn
  · exact hb m h

theorem not_jump_of_pausable_mem (cfg : FlowPlayerConfig)
    (hmask : EDialoguePausableType.jump ∉ cfg.PauseOn) (k : DialogueNodeKind)
    (h : GetPausableType k ∈ cfg.PauseOn) : isJumpKind k = false := by
  cases k <;> simp_all [GetPausableType, isJumpKind]

theorem jumpFree_exploreFuel (ev : ScriptEvaluator) (g : List DialogueNode)
    (cfg : FlowPlayerConfig) (hmask : EDialoguePausableType.jump ∉ cfg.PauseOn) :
    ∀ (fuel : Nat) (gv : DialogueGlobalVariables) (node : DialogueNode) (inc : Bool),
      ∀ b ∈ (exploreFuel ev g cfg fuel gv node inc).branches, jumpFreeBranch b := by
  intro fuel
  induction fuel with
  | zero => intro gv node inc b hb; simp [exploreFuel] at hb
  | succ fuel ih =>
    intro gv node inc b hb
    have hrec : ∀ s t, ∀ b ∈ (exploreFuel ev g cfg fuel s t true).branches,
        jumpFreeBranch b := fun s t => ih s t true
    rw [exploreFuel] at hb
    split at hb
    · rename_i hcond
      simp only [List.mem_singleton] at hb
      subst hb
      intro m hm
      rcases List.mem_singleton.mp hm with rfl
      exact not_jump_of_pausable_mem cfg hmask m.kind hcond.2.1
    · split at hb
      · split at hb
        · simp at hb
        · exact ih gv _ true b hb
      · rename_i expr heq
        split at hb
        · simp only [List.mem_map] at hb
          obtain ⟨b0, hb0, rfl⟩ := hb
          refine jumpFree_prepend node b0 ?_
            (jumpFree_exploreConns ev g cfg false _ hrec (allConnections node) gv b0 hb0)
          rw [heq]; rfl
        · split at hb
          · simp at hb
          · simp only [List.mem_singleton] at hb
            subst hb
            intro m hm
            rcases List.mem_singleton.mp hm with rfl
            rw [heq]; rfl
      · rename_i expr heq
        simp only [List.mem_map] at hb
        obtain ⟨b0, hb0, rfl⟩ := hb
        refine jumpFree_prepend node b0 ?_
          (jumpFree_exploreConns ev g cfg false _ hrec (allConnections node) _ b0 hb0)
        rw [heq]; rfl
      · rename_i hne1 hne2 hne3
        simp only [List.mem_map] at hb
        obtain ⟨b0, hb0, rfl⟩ := hb
        refine jumpFree_prepend node b0 ?_
          (jumpFree_exploreConns ev g cfg true _ hrec (allConnections node) gv b0 hb0)
        cases hknd : node.kind <;> simp_all [isJumpKind]

/-- A jump reached below the depth limit (and not in the pause mask)
redirects: its exploration equals exploring the resolved target at
`depth + 1` with `includeCurrent = true`, contributing nothing of itself
to the emitted paths. -/
theorem explore_jump_redirect (ev : ScriptEvaluator) (g : List DialogueNode)
    (cfg : FlowPlayerConfig) (gv : DialogueGlobalVariables)
    (node t : DialogueNode) (tgt : String) (pinIdx : Nat) (depth : Nat) (inc : Bool)
    (hk : node.kind = .jump tgt pinIdx)
    (hmask : EDialoguePausableType.jump ∉ cfg.PauseOn)
    (hdepth : depth ≤ cfg.ExploreLimit)
    (hres : resolveNode g tgt = some t) :
    Explore ev g cfg gv node depth inc = Explore ev g cfg gv t (depth + 1) true := by
  unfold Explore
  have hf : cfg.ExploreLimit + 1 - depth = (cfg.ExploreLimit - depth) + 1 := by omega
  have hf2 : cfg.ExploreLimit + 1 - (depth + 1) = cfg.ExploreLimit - depth := by omega
  rw [hf, hf2, exploreFuel]
  have hpause : ¬(inc = true ∧ GetPausableType node.kind ∈ cfg.PauseOn ∧
      isAutoTransition node.kind = false) := by
    intro hcon
    apply hmask
    have hmem := hcon.2.1
    rw [hk] at hmem
    exact hmem
  rw [if_neg hpause, hk]
  simp only [hres]

/-! ## Concrete graphs used as evaluation inputs -/

/-- A simple evaluator: a condition passes exactly when its expression is
the literal `true`; instructions write nothing. -/
def exEval : ScriptEvaluator :=
  { evalCond := fun e _ => e == "true", instrWrites := fun _ _ => [] }

/-- The empty variable store. -/
def exStore : DialogueGlobalVariables := { namespaces := [], shadowLevel := 0 }

/-- A pausable dialogue node with an ungated input pin. -/
def exDlgD : DialogueNode :=
  { id := "D", kind := .dialogue false,
    inputPins := [{ script := Option.none }], outputPins := [] }

/-- A jump node redirecting to `exDlgD`. -/
def exJumpJ : DialogueNode :=
  { id := "J", kind := .jump "D" 0, inputPins := [], outputPins := [] }

/-- Graph with one jump and its dialogue target. -/
def exJumpGraph : List DialogueNode := [exJumpJ, exDlgD]

/-- C6 counterexample: with a pause mask containing the Jump pausable type
(allowed by the pause-mask configuration), exploring a jump with
`includeCurrent` emits the jump node itself as a branch path element —
so "the branch's Path never contains a Jump node", quantified over every
exploration, is false at this concrete input. -/
theorem jump_in_pause_mask_emits_jump_node :
    ((Explore exEval exJumpGraph { PauseOn := [.jump] } exStore exJumpJ 0 true).branches.any
      (fun b => b.path.any (fun n => isJumpKind n.kind))) = true := by decide

/-- C6 (amended): provided the pause mask does not contain the Jump
pausable type (as in the source's default mask), no branch emitted by
exploration has a Jump node in its path; and a jump reached below the
depth limit redirects into the node resolved from its `TargetNodeId`,
explored at `depth + 1` with `includeCurrent = true`, so only the
redirection target onward appears in the emitted path. -/
theorem jump_transparent_when_not_pausable :
    (∀ (ev : ScriptEvaluator) (g : List DialogueNode) (cfg : FlowPlayerConfig)
       (gv : DialogueGlobalVariables) (node : DialogueNode) (depth : Nat) (inc : Bool),
      EDialoguePausableType.jump ∉ cfg.PauseOn →
      ∀ b ∈ (Explore ev g cfg gv node depth inc).branches,
        ∀ n ∈ b.path, isJumpKind n.kind = false) ∧
    (∀ (ev : ScriptEvaluator) (g : List DialogueNode) (cfg : FlowPlayerConfig)
       (gv : DialogueGlobalVariables) (node t : DialogueNode)
       (tgt : String) (pinIdx : Nat) (depth : Nat) (inc : Bool),
      node.kind = .jump tgt pinIdx →
      EDialoguePausableType.jump ∉ cfg.PauseOn →
      depth ≤ cfg.ExploreLimit →
      resolveNode g tgt = some t →
      Explore ev g cfg gv node depth inc = Explore ev g cfg gv t (depth + 1) true) := by
  constructor
  · intro ev g cfg gv node depth inc hmask b hb
    exact jumpFree_exploreFuel ev g cfg hmask _ gv node inc b hb
  · intro ev g cfg gv node t tgt pinIdx depth inc hk hmask hdepth hres
    exact explore_jump_redirect ev g cfg gv node t tgt pinIdx depth inc hk hmask hdepth hres

/-- Witness for C6 on the concrete jump graph with the default pause
mask. -/
theorem jump_transparent_when_not_pausable_witness :
    (isJumpKind exDlgD.kind = false) ∧
    (Explore exEval exJumpGraph { } exStore exJumpJ 0 true
      = Explore exEval exJumpGraph { } exStore exDlgD 1 true) :=
  ⟨jump_transparent_when_not_pausable.1 exEval exJumpGraph { } exStore exJumpJ 0 true
      (by decide) { path := [exDlgD], bIsValid := true } (by decide) exDlgD (by decide),
   jump_transparent_when_not_pausable.2 exEval exJumpGraph { } exStore exJumpJ exDlgD
      "D" 0 0 true rfl (by decide) (by decide) (by decide)⟩

/-- The true-gated dialogue target of the C7 hub. -/
def c7D1 : DialogueNode :=
  { id := "D1", kind := .dialogue false,
    inputPins := [{ script := some "true" }], outputPins := [] }

/-- The false-gated dialogue target of the C7 hub. -/
def c7D2 : DialogueNode :=
  { id := "D2", kind := .dialogue false,
    inputPins := [{ script := some "false" }], outputPins := [] }

/-- A hub with two outgoing connections whose target input-pin conditions
evaluate to true and false respectively. -/
def c7HubPin : DialogueOutputPin :=
  { script := Option.none,
    connections := [{ targetNodeId := "D1", targetPinIndex := 0 },
                    { targetNodeId := "D2", targetPinIndex := 0 }] }

/-- The C7 hub node itself. -/
def c7Hub : DialogueNode :=
  { id := "H", kind := .hub, inputPins := [{ script := Option.none }],
    outputPins := [c7HubPin] }

/-- The C7 graph. -/
def c7Graph : List DialogueNode := [c7Hub, c7D1, c7D2]

/-- C7: for the hub with a true-gated and a false-gated target, branch
exploration yields exactly one branch (the true path, valid) when
`bIgnoreInvalidBranches = true` (the default), and exactly two branches
(the true path valid, the false path invalid) when it is false. -/
theorem hub_condition_gating_branch_counts :
    (Explore exEval c7Graph { } exStore c7Hub 0 false).branches
      = [{ path := [c7Hub, c7D1], bIsValid := true }] ∧
    (Explore exEval c7Graph { bIgnoreInvalidBranches := false } exStore c7Hub 0 false).branches
      = [{ path := [c7Hub, c7D1], bIsValid := true },
         { path := [c7Hub, c7D2], bIsValid := false }] :=
  ⟨by decide, by decide⟩

/-- A hub with one ungated connection to the named node (used to build
the cycle). -/
def mkCycleHub (hubId nextId : String) : DialogueNode :=
  { id := hubId, kind := .hub, inputPins := [{ script := Option.none }],
    outputPins := [{ script := Option.none,
                     connections := [{ targetNodeId := nextId, targetPinIndex := 0 }] }] }

/-- First hub of the three-node cycle. -/
def c3H0 : DialogueNode := mkCycleHub "H0" "H1"

/-- Second hub of the three-node cycle. -/
def c3H1 : DialogueNode := mkCycleHub "H1" "H2"

/-- Third hub of the three-node cycle, closing the loop back to `H0`. -/
def c3H2 : DialogueNode := mkCycleHub "H2" "H0"

/-- A cyclic graph of three unconditioned hubs. -/
def c3Graph : List DialogueNode := [c3H0, c3H1, c3H2]

/-- A configuration with a small exploration limit. -/
def c3Cfg : FlowPlayerConfig := { ExploreLimit := 5 }

/-- C3: every call to `Explore` with depth greater than `ExploreLimit`
returns the empty branch sequence together with a depth-limit diagnostic
(observable, not a silent truncation); and exploring a cycle of
unconditioned hubs terminates and returns a result — the recursion is
bounded by the fuel `ExploreLimit + 1 - depth`, proportional to the
limit. -/
theorem explore_depth_guard_and_cycle_termination :
    (∀ (ev : ScriptEvaluator) (g : List DialogueNode) (cfg : FlowPlayerConfig)
       (gv : DialogueGlobalVariables) (node : DialogueNode) (depth : Nat) (inc : Bool),
      cfg.ExploreLimit < depth →
      Explore ev g cfg gv node depth inc
        = { branches := [], store := gv, diags := [.depthLimitExceeded] }) ∧
    ((Explore exEval c3Graph c3Cfg exStore c3H0 0 false).branches = [] ∧
     (Explore exEval c3Graph c3Cfg exStore c3H0 0 false).diags
        = [.depthLimitExceeded]) := by
  constructor
  · intro ev g cfg gv node depth inc h
    unfold Explore
    have h0 : cfg.ExploreLimit + 1 - depth = 0 := by omega
    rw [h0]
    rfl
  · exact ⟨by decide, by decide⟩

/-- Witness for C3 at depth 6 against a limit of 5. -/
theorem explore_depth_guard_witness :
    Explore exEval c3Graph c3Cfg exStore c3H0 6 true
      = { branches := [], store := exStore, diags := [.depthLimitExceeded] } :=
  explore_depth_guard_and_cycle_termination.1 exEval c3Graph c3Cfg exStore c3H0 6 true
    (by decide)

/-! ## UpdateAvailableBranches and the commit path (C2) -/

/-- Modelled from the spec: `UDialogueFlowPlayer::UpdateAvailableBranches`
(body not in the runtime sources) runs `Explore` from the cursor inside a
`ShadowedOperation` — lookahead is always shadowed — and publishes the
branches it found. -/
def UpdateAvailableBranches (ev : ScriptEvaluator) (g : List DialogueNode)
    (cfg : FlowPlayerConfig) (ps : FlowPlayerState) (gv : DialogueGlobalVariables) :
    PlayerResult :=
  match ps.cursor with
  | Option.none =>
      { player := ps, store := gv, diags := [.unresolvedReference "(cursor)"], events := [] }
  | some node =>
      ShadowedOperation cfg (fun ps1 gv1 =>
        let r := Explore ev g cfg gv1 node 0 false
        { player := { ps1 with availableBranches := r.branches }, store := r.store,
          diags := r.diags, events := [] }) ps gv

/-- Modelled from the spec: `UDialogueFlowPlayer::PlayBranch` commits one
branch — it walks the branch's path for real (outside shadow mode),
executing the instruction effects encountered, and moves the cursor to
the branch target.  (Output-pin exit scripts are not recorded in branch
paths and are omitted; the `Instruction` nodes on the path carry the
mutations the claims concern.) -/
def PlayBranch (ev : ScriptEvaluator) (ps : FlowPlayerState)
    (gv : DialogueGlobalVariables) (branch : FDialogueBranch) :
    FlowPlayerState × DialogueGlobalVariables :=
  let gv2 := branch.path.foldl (fun s n =>
    match n.kind with
    | .instruction expr => execInstr ev expr s
    | _ => s) gv
  ({ ps with cursor := GetTarget branch }, gv2)

/-- The boolean variable `NS.X`, currently false. -/
def c2VarX : DialogueVariable :=
  { name := "NS.X", value := .boolVal false, shadowStack := [] }

/-- The namespace `NS` holding `X`. -/
def c2NS : DialogueVariableNamespace :=
  { name := "NS", Variables := [("X", c2VarX)] }

/-- A store holding one boolean variable `NS.X`, currently false. -/
def c2Store : DialogueGlobalVariables :=
  { namespaces := [("NS", c2NS)], shadowLevel := 0 }

/-- An evaluator whose instructions set `NS.X` to true. -/
def c2Eval : ScriptEvaluator :=
  { evalCond := fun e _ => e == "true",
    instrWrites := fun _ _ => [("NS.X", .boolVal true)] }

/-- The pausable dialogue the C2 instruction leads to. -/
def c2D : DialogueNode :=
  { id := "D", kind := .dialogue false,
    inputPins := [{ script := Option.none }], outputPins := [] }

/-- The instruction node's output pin, connected to the dialogue `D`. -/
def c2InstrPin : DialogueOutputPin :=
  { script := Option.none,
    connections := [{ targetNodeId := "D", targetPinIndex := 0 }] }

/-- An instruction node mutating `NS.X`. -/
def c2Instr : DialogueNode :=
  { id := "I", kind := .instruction "NS.X = true",
    inputPins := [{ script := Option.none }],
    outputPins := [c2InstrPin] }

/-- A flow player positioned on the instruction node. -/
def c2Player : FlowPlayerState :=
  { shadowLevel := 0, cursor := some c2Instr, availableBranches := [] }

/-- The branch through the instruction to the dialogue. -/
def c2Branch : FDialogueBranch := { path := [c2Instr, c2D], bIsValid := true }

/-- C2: `UpdateAvailableBranches` is isolated — whatever instructions its
exploration runs, every variable's live value equals its pre-call value
when it returns; whereas `PlayBranch` on a branch whose path traverses an
instruction mutating `NS.X` leaves `NS.X` permanently mutated (true after
the call, false before). -/
theorem update_branches_isolates_play_commits :
    (∀ (ev : ScriptEvaluator) (g : List DialogueNode) (cfg : FlowPlayerConfig)
       (ps : FlowPlayerState) (gv : DialogueGlobalVariables) (full : String),
      liveValue (UpdateAvailableBranches ev g cfg ps gv).store full = liveValue gv full) ∧
    (liveValue c2Store "NS.X" = some (.boolVal false) ∧
     liveValue (PlayBranch c2Eval c2Player c2Store c2Branch).2 "NS.X"
        = some (.boolVal true)) := by
  constructor
  · intro ev g cfg ps gv full
    unfold UpdateAvailableBranches
    split
    · rfl
    · rename_i node hcur
      unfold ShadowedOperation
      split
      · rfl
      · rename_i hlim
        simp only
        unfold liveValue GetVariable
        have hshape : varsShape
            (Explore ev g cfg (PushState gv (ps.shadowLevel + 1)) node 0 false).store
            = varsShape { namespaces := mapVarsNS pushVar gv.namespaces,
                          shadowLevel :=
                            (Explore ev g cfg (PushState gv (ps.shadowLevel + 1))
                              node 0 false).store.shadowLevel } := by
          unfold Explore
          rw [varsShape_exploreFuel]
          rfl
        rw [popState_restore _ gv _ hshape]
  · exact ⟨by decide, by decide⟩

/-! ## Asset generation: ProcessConnections
(DialogueAssetGenerator.cpp, lines 366-400) -/

/-- Struct `FDialogueConnectionDef` (DialogueImportData.h). -/
structure FDialogueConnectionDef where
  Id : String
  SourceId : String
  SourcePin : Int
  TargetId : String
  TargetPin : Int
  deriving DecidableEq

/-- A connection as created by the generator (`UDialogueConnection`,
carrying the raw definition fields). -/
structure GenConnection where
  TargetNodeId : String
  TargetPinIndex : Int
  deriving DecidableEq

/-- A generated output pin. -/
structure GenOutputPin where
  connections : List GenConnection
  deriving DecidableEq

/-- A generated node: the generator created one input pin per imported
input-pin id (only their count matters to connection validity) and the
listed output pins. -/
structure GenNode where
  inputPinCount : Nat
  outputPins : List GenOutputPin
  deriving DecidableEq

/-- A generated object: a node, or a non-node object (e.g. a character)
on which `Cast<UDialogueNode>` fails. -/
inductive GenObject where
  | node (n : GenNode)
  | nonNode
  deriving DecidableEq

/-- Lookup `ObjectsById.Find` on the generator's id map. -/
def lookupObj (objects : List (String × GenObject)) (objId : String) : Option GenObject :=
  (objects.find? (fun p => p.1 == objId)).map Prod.snd

/-- Lookup composed with the node cast. -/
def resolveGenNode (objects : List (String × GenObject)) (objId : String) :
    Option GenNode :=
  match lookupObj objects objId with
  | some (.node n) => some n
  | _ => Option.none

/-- Fetch output pin `i` and append the connection to it, as the source
does with `OutputPins[ConnDef.SourcePin]` followed by
`Connections.Add`. -/
def appendConnAt (n : GenNode) (i : Nat) (conn : GenConnection) : GenNode :=
  match n.outputPins.get? i with
  | Option.none => n
  | some p =>
    { n with outputPins :=
        n.outputPins.set i { p with connections := p.connections ++ [conn] } }

/-- One iteration of `FDialogueAssetGenerator::ProcessConnections`
(DialogueAssetGenerator.cpp): source and target ids are looked up in
`ObjectsById` and cast to nodes — a miss or failed cast skips the
definition without error; the source pin index is checked only with
`ConnDef.SourcePin < SourceNode->OutputPins.Num()`, exactly as in the
source; inside that branch `OutputPins[ConnDef.SourcePin]` is indexed,
and for a negative `SourcePin` (which passes the `<` check) that access
fatally fails the engine's `TArray` bounds assertion — modelled as the
fault result `none`.  A surviving definition creates one
`UDialogueConnection` carrying `TargetId` and `TargetPin` unchanged and
appends it to the source node's output pin.  The target pin index is
never validated.  (The source's `if (OutputPin)` null check is vacuous
here, pins being values.) -/
def processOneConnection (objects : List (String × GenObject))
    (cd : FDialogueConnectionDef) : Option (List (String × GenObject)) :=
  match lookupObj objects cd.SourceId, lookupObj objects cd.TargetId with
  | some (.node srcNode), some (.node _) =>
    if cd.SourcePin < (srcNode.outputPins.length : Int) then
      if 0 ≤ cd.SourcePin then
        some (objects.map (fun p =>
          if p.1 = cd.SourceId then
            (p.1, .node (appendConnAt srcNode cd.SourcePin.toNat
              { TargetNodeId := cd.TargetId, TargetPinIndex := cd.TargetPin }))
          else p))
      else Option.none
    else some objects
  | _, _ => some objects

/-- Method `FDialogueAssetGenerator::ProcessConnections`: fold the
definitions in order, propagating the fatal bounds-assertion fault. -/
def ProcessConnections (objects : List (String × GenObject)) :
    List FDialogueConnectionDef → Option (List (String × GenObject))
  | [] => some objects
  | cd :: rest =>
    match processOneConnection objects cd with
    | some objects2 => ProcessConnections objects2 rest
    | Option.none => Option.none

/-- The C9 source node: one (empty) output pin. -/
def c9SrcNode : GenNode := { inputPinCount := 1, outputPins := [{ connections := [] }] }

/-- The C9 target node: no input pins at all. -/
def c9TgtNode : GenNode := { inputPinCount := 0, outputPins := [] }

/-- The C9 object map. -/
def c9Objects : List (String × GenObject) :=
  [("S", .node c9SrcNode), ("T", .node c9TgtNode)]

/-- A connection definition whose target pin index (5) resolves to no
input pin of the target node (which has none). -/
def c9BadDef : FDialogueConnectionDef :=
  { Id := "c1", SourceId := "S", SourcePin := 0, TargetId := "T", TargetPin := 5 }

/-- C9 counterexample: the connection definition's target pin index is
invalid (the target node has zero input pins), yet a connection is
created and appended to the source pin — the claim's "no connection is
created" for an invalid pin index is false on the code, which
bounds-checks only the source pin. -/
theorem dangling_target_pin_connection_created :
    c9TgtNode.inputPinCount = 0 ∧
    ProcessConnections c9Objects [c9BadDef]
      = some [("S", .node { inputPinCount := 1,
                            outputPins := [{ connections :=
                              [{ TargetNodeId := "T", TargetPinIndex := 5 }] }] }),
              ("T", .node c9TgtNode)] := ⟨rfl, by decide⟩

theorem lookupObj_map_const (objects : List (String × GenObject)) (k : String)
    (o : GenObject) :
    lookupObj (objects.map (fun p => if p.1 = k then (p.1, o) else p)) k
      = (lookupObj objects k).map (fun _ => o) := by
  induction objects with
  | nil => rfl
  | cons q rest ih =>
    by_cases h : q.1 = k
    · simp [lookupObj, List.find?, h]
    · have hb : (q.1 == k) = false := by
        simp only [beq_eq_false_iff_ne, ne_eq]; exact h
      simp only [List.map_cons, if_neg h]
      simp only [lookupObj, List.find?, hb] at ih ⊢
      exact ih

/-- The created connection appended to an output pin: it carries the
definition's target node id and target pin index unchanged. -/
def appendedPin (pin : GenOutputPin) (cd : FDialogueConnectionDef) : GenOutputPin :=
  { pin with connections := pin.connections ++
      [{ TargetNodeId := cd.TargetId, TargetPinIndex := cd.TargetPin }] }

theorem resolveGenNode_some_lookup (objects : List (String × GenObject))
    (objId : String) (n : GenNode) (h : resolveGenNode objects objId = some n) :
    lookupObj objects objId = some (.node n) := by
  unfold resolveGenNode at h
  cases hl : lookupObj objects objId with
  | none => rw [hl] at h; exact absurd h (by simp)
  | some o =>
    cases o with
    | nonNode => rw [hl] at h; exact absurd h (by simp)
    | node m => rw [hl] at h; simp at h; rw [h]

/-- C9 (amended): a connection definition whose source or target id does
not resolve to a generated node, or whose source pin index is at least
the source node's output-pin count, creates no connection and processing
continues with the remaining definitions; a definition whose ids resolve
to nodes but whose (`int32`) source pin index is negative passes the
code's only check (`SourcePin < OutputPins.Num()`) and then fatally
fails the `OutputPins[SourcePin]` bounds assertion, aborting processing;
every other definition appends exactly one connection, carrying the
definition's target node id and target pin index unchanged, to the
source node's addressed output pin.  (The target pin index is not
validated at generation time — see the counterexample.) -/
theorem process_connections_amended :
    (∀ (objects : List (String × GenObject)) (cd : FDialogueConnectionDef)
       (rest : List FDialogueConnectionDef),
      (resolveGenNode objects cd.SourceId = Option.none ∨
       resolveGenNode objects cd.TargetId = Option.none ∨
       (∀ sn, resolveGenNode objects cd.SourceId = some sn →
         (sn.outputPins.length : Int) ≤ cd.SourcePin)) →
      ProcessConnections objects (cd :: rest) = ProcessConnections objects rest) ∧
    (∀ (objects : List (String × GenObject)) (cd : FDialogueConnectionDef)
       (sn tn : GenNode) (pin : GenOutputPin),
      resolveGenNode objects cd.SourceId = some sn →
      resolveGenNode objects cd.TargetId = some tn →
      0 ≤ cd.SourcePin → cd.SourcePin < (sn.outputPins.length : Int) →
      sn.outputPins.get? cd.SourcePin.toNat = some pin →
      (processOneConnection objects cd).bind
          (fun objs => resolveGenNode objs cd.SourceId)
        = some { sn with outputPins := sn.outputPins.set cd.SourcePin.toNat
                           (appendedPin pin cd) }) ∧
    (∀ (objects : List (String × GenObject)) (cd : FDialogueConnectionDef)
       (rest : List FDialogueConnectionDef) (sn tn : GenNode),
      resolveGenNode objects cd.SourceId = some sn →
      resolveGenNode objects cd.TargetId = some tn →
      cd.SourcePin < 0 → cd.SourcePin < (sn.outputPins.length : Int) →
      processOneConnection objects cd = Option.none ∧
      ProcessConnections objects (cd :: rest) = Option.none) := by
  refine ⟨?_, ?_, ?_⟩
  · intro objects cd rest hskip
    have hone : processOneConnection objects cd = some objects := by
      unfold processOneConnection
      cases hs : lookupObj objects cd.SourceId with
      | none => rfl
      | some os =>
        cases os with
        | nonNode => cases ht : lookupObj objects cd.TargetId with
          | none => rfl
          | some ot => cases ot <;> rfl
        | node sn =>
          cases ht : lookupObj objects cd.TargetId with
          | none => rfl
          | some ot =>
            cases ot with
            | nonNode => rfl
            | node tn =>
              have hsn : resolveGenNode objects cd.SourceId = some sn := by
                unfold resolveGenNode; rw [hs]
              have htn : resolveGenNode objects cd.TargetId = some tn := by
                unfold resolveGenNode; rw [ht]
              rcases hskip with h | h | h
              · rw [hsn] at h; exact absurd h (by simp)
              · rw [htn] at h; exact absurd h (by simp)
              · exact if_neg (not_lt.mpr (h sn hsn))
    rw [ProcessConnections, hone]
  · intro objects cd sn tn pin hsn htn hp0 hplen hpin
    have hs := resolveGenNode_some_lookup objects cd.SourceId sn hsn
    have ht := resolveGenNode_some_lookup objects cd.TargetId tn htn
    unfold processOneConnection
    rw [hs, ht]
    simp only [if_pos hplen, if_pos hp0]
    show resolveGenNode _ cd.SourceId = _
    unfold resolveGenNode
    rw [lookupObj_map_const, hs]
    unfold appendConnAt
    rw [hpin]
    rfl
  · intro objects cd rest sn tn hsn htn hneg hplen
    have hs := resolveGenNode_some_lookup objects cd.SourceId sn hsn
    have ht := resolveGenNode_some_lookup objects cd.TargetId tn htn
    have hone : processOneConnection objects cd = Option.none := by
      unfold processOneConnection
      rw [hs, ht]
      simp only [if_pos hplen, if_neg (not_le.mpr hneg)]
    exact ⟨hone, by rw [ProcessConnections, hone]⟩

/-- An unresolvable connection definition (source id `Z` is not in the
object map). -/
def c9DeadDef : FDialogueConnectionDef :=
  { Id := "c0", SourceId := "Z", SourcePin := 0, TargetId := "T", TargetPin := 0 }

/-- A connection definition with a negative source pin index, which the
generator's only check does not reject. -/
def c9NegDef : FDialogueConnectionDef :=
  { Id := "c2", SourceId := "S", SourcePin := -1, TargetId := "T", TargetPin := 0 }

/-- The C9 source node after the connection is appended. -/
def c9SrcNodeAfter : GenNode :=
  { c9SrcNode with
    outputPins := c9SrcNode.outputPins.set 0 (appendedPin { connections := [] } c9BadDef) }

/-- Witness for C9 on the concrete object map: the dangling-source
definition is skipped, the resolvable definition appends exactly one
connection carrying its target fields, and the negative-pin definition
hits the fatal bounds assertion. -/
theorem process_connections_amended_witness :
    (ProcessConnections c9Objects [c9DeadDef] = ProcessConnections c9Objects []) ∧
    ((processOneConnection c9Objects c9BadDef).bind
        (fun objs => resolveGenNode objs c9BadDef.SourceId) = some c9SrcNodeAfter) ∧
    (processOneConnection c9Objects c9NegDef = Option.none ∧
     ProcessConnections c9Objects [c9NegDef] = Option.none) :=
  ⟨process_connections_amended.1 c9Objects c9DeadDef [] (Or.inl (by decide)),
   process_connections_amended.2.1 c9Objects c9BadDef c9SrcNode c9TgtNode
     { connections := [] } (by decide) (by decide) (by decide) (by decide) (by decide),
   process_connections_amended.2.2 c9Objects c9NegDef [] c9SrcNode c9TgtNode
     (by decide) (by decide) (by decide) (by decide)⟩

/-! ## FDialogueId: ToString / FromString (DialogueTypes.h) -/

/-- Struct `FDialogueId` (DialogueTypes.h): two signed 64-bit halves, kept as
integers in the signed range. -/
structure FDialogueId where
  Low : Int
  High : Int
  deriving DecidableEq

/-- The unsigned 64-bit bit pattern of a signed 64-bit value (what
`%016llX` prints). -/
def uint64OfInt (x : Int) : Nat := (x % ((2 : Int) ^ 64)).toNat

/-- Interpret an unsigned 64-bit value as a signed `int64` (what
assigning `FCString::Strtoui64`'s result to `int64` yields). -/
def int64OfUInt (n : Nat) : Int :=
  if n < 2 ^ 63 then (n : Int) else (n : Int) - 2 ^ 64

/-- One uppercase hexadecimal digit (`%X` formatting). -/
def hexDigitChar (n : Nat) : Char :=
  if n < 10 then Char.ofNat (48 + n) else Char.ofNat (55 + n)

/-- The `k` low hex digits of `n`, most significant first (the zero-padded
fixed-width rendering of `%016llX` when `k = 16`). -/
def toHexBE : Nat → Nat → List Char
  | 0, _ => []
  | k + 1, n => hexDigitChar (n / 16 ^ k % 16) :: toHexBE k n

/-- Method `FDialogueId::ToString` (DialogueTypes.h):
`FString::Printf(TEXT("0x%016llX%016llX"), High, Low)` — the literal
`0x` followed by the 16 uppercase hex digits of `High` then of `Low`,
each half printed as its unsigned 64-bit bit pattern.  Strings are
modelled as character lists. -/
def idToString (id : FDialogueId) : List Char :=
  '0' :: 'x' :: (toHexBE 16 (uint64OfInt id.High) ++ toHexBE 16 (uint64OfInt id.Low))

/-- Model of `FString::Replace(TEXT("0x"), TEXT(""))`: remove every (leftmost,
non-overlapping) occurrence of `0x`. -/
def removeHexMarks : List Char → List Char
  | [] => []
  | [c] => [c]
  | c1 :: c2 :: rest =>
    if c1 = '0' ∧ c2 = 'x' then removeHexMarks rest
    else c1 :: removeHexMarks (c2 :: rest)

/-- The value of one hex digit (`Strtoui64` accepts both cases). -/
def hexVal? (c : Char) : Option Nat :=
  if '0' ≤ c ∧ c ≤ '9' then some (c.toNat - 48)
  else if 'A' ≤ c ∧ c ≤ 'F' then some (c.toNat - 55)
  else if 'a' ≤ c ∧ c ≤ 'f' then some (c.toNat - 87)
  else Option.none

/-- Model of `FCString::Strtoui64(…, nullptr, 16)` on a digit string: accumulate
leading hex digits, stopping at the first non-digit. -/
def strtoui64Hex : List Char → Nat → Nat
  | [], acc => acc
  | c :: rest, acc =>
    match hexVal? c with
    | some d => strtoui64Hex rest (acc * 16 + d)
    | Option.none => acc

/-- Method `FDialogueId::FromString` (DialogueTypes.h): strip `0x` marks, and if
at least 32 characters remain, parse the left 16 as `High` and the right
16 as `Low`; otherwise return the zero id. -/
def idFromString (s : List Char) : FDialogueId :=
  let clean := removeHexMarks s
  if 32 ≤ clean.length then
    { High := int64OfUInt (strtoui64Hex (clean.take 16) 0),
      Low := int64OfUInt (strtoui64Hex (clean.drop (clean.length - 16)) 0) }
  else { Low := 0, High := 0 }

/-! ### Round-trip lemmas -/

theorem toHexBE_length (k n : Nat) : (toHexBE k n).length = k := by
  induction k generalizing n with
  | zero => rfl
  | succ k ih => simp [toHexBE, ih]

theorem hexVal?_hexDigitChar (m : Nat) (h : m < 16) :
    hexVal? (hexDigitChar m) = some m := by
  interval_cases m <;> decide

theorem hexDigitChar_ne_x (m : Nat) (h : m < 16) : hexDigitChar m ≠ 'x' := by
  interval_cases m <;> decide

/-- An uppercase hex digit: `0`-`9` or `A`-`F`. -/
def IsUpperHexDigit (c : Char) : Prop :=
  ('0' ≤ c ∧ c ≤ '9') ∨ ('A' ≤ c ∧ c ≤ 'F')

theorem hexDigitChar_upper (m : Nat) (h : m < 16) : IsUpperHexDigit (hexDigitChar m) := by
  interval_cases m <;> first
    | exact Or.inl (by decide)
    | exact Or.inr (by decide)

theorem mem_toHexBE_upper (k n : Nat) : ∀ c ∈ toHexBE k n, IsUpperHexDigit c := by
  induction k generalizing n with
  | zero => intro c hc; simp [toHexBE] at hc
  | succ k ih =>
    intro c hc
    rcases List.mem_cons.mp hc with rfl | hc
    · exact hexDigitChar_upper _ (Nat.mod_lt _ (by norm_num))
    · exact ih n c hc

theorem mem_toHexBE_ne_x (k n : Nat) : ∀ c ∈ toHexBE k n, c ≠ 'x' := by
  induction k generalizing n with
  | zero => intro c hc; simp [toHexBE] at hc
  | succ k ih =>
    intro c hc
    rcases List.mem_cons.mp hc with rfl | hc
    · exact hexDigitChar_ne_x _ (Nat.mod_lt _ (by norm_num))
    · exact ih n c hc

theorem removeHexMarks_of_no_x : ∀ (l : List Char), (∀ c ∈ l, c ≠ 'x') →
    removeHexMarks l = l
  | [], _ => rfl
  | [c], _ => rfl
  | c1 :: c2 :: rest, h => by
    have h2 : c2 ≠ 'x' := h c2 (by simp)
    rw [removeHexMarks]
    rw [if_neg (by rintro ⟨rfl, rfl⟩; exact h2 rfl)]
    rw [removeHexMarks_of_no_x (c2 :: rest)
      (fun c hc => h c (List.mem_cons_of_mem _ hc))]

theorem strtoui64Hex_toHexBE (k : Nat) :
    ∀ (n acc : Nat), strtoui64Hex (toHexBE k n) acc = acc * 16 ^ k + n % 16 ^ k := by
  induction k with
  | zero => intro n acc; simp [toHexBE, strtoui64Hex, Nat.mod_one]
  | succ k ih =>
    intro n acc
    rw [toHexBE, strtoui64Hex, hexVal?_hexDigitChar _ (Nat.mod_lt _ (by norm_num))]
    show strtoui64Hex (toHexBE k n) (acc * 16 + n / 16 ^ k % 16)
        = acc * 16 ^ (k + 1) + n % 16 ^ (k + 1)
    rw [ih, pow_succ, Nat.mod_mul]
    ring

theorem int64OfUInt_uint64OfInt (x : Int) (h1 : -(2 ^ 63) ≤ x) (h2 : x < 2 ^ 63) :
    int64OfUInt (uint64OfInt x) = x := by
  unfold int64OfUInt uint64OfInt
  split <;> omega

/-- C10: for every `FDialogueId` whose halves are in the signed 64-bit
range (every value the `int64` fields can hold, negative halves
included), `FromString (ToString id) = id`; moreover `ToString` prints
exactly `0x` followed by 32 uppercase hexadecimal digits, the `High`
half's 16 digits and then the `Low` half's. -/
theorem dialogue_id_tostring_fromstring_roundtrip (low high : Int)
    (h1 : -(2 ^ 63) ≤ low) (h2 : low < 2 ^ 63)
    (h3 : -(2 ^ 63) ≤ high) (h4 : high < 2 ^ 63) :
    idFromString (idToString { Low := low, High := high })
        = { Low := low, High := high } ∧
    (idToString { Low := low, High := high }).length = 34 ∧
    (idToString { Low := low, High := high }).take 2 = ['0', 'x'] ∧
    (∀ c ∈ (idToString { Low := low, High := high }).drop 2, IsUpperHexDigit c) := by
  have hulow : uint64OfInt low < 2 ^ 64 := by unfold uint64OfInt; omega
  have huhigh : uint64OfInt high < 2 ^ 64 := by unfold uint64OfInt; omega
  have hlenH := toHexBE_length 16 (uint64OfInt high)
  have hlenL := toHexBE_length 16 (uint64OfInt low)
  have hdigits : ∀ c ∈ toHexBE 16 (uint64OfInt high) ++ toHexBE 16 (uint64OfInt low),
      c ≠ 'x' := by
    intro c hc
    rcases List.mem_append.mp hc with hc | hc
    · exact mem_toHexBE_ne_x _ _ c hc
    · exact mem_toHexBE_ne_x _ _ c hc
  have hlen : (toHexBE 16 (uint64OfInt high) ++ toHexBE 16 (uint64OfInt low)).length
      = 32 := by
    rw [List.length_append, hlenH, hlenL]
  refine ⟨?_, ?_, ?_, ?_⟩
  · have hclean : removeHexMarks (idToString { Low := low, High := high })
        = toHexBE 16 (uint64OfInt high) ++ toHexBE 16 (uint64OfInt low) := by
      unfold idToString
      rw [removeHexMarks]
      rw [if_pos (⟨rfl, rfl⟩ : ('0' = '0' ∧ 'x' = 'x'))]
      exact removeHexMarks_of_no_x _ hdigits
    unfold idFromString
    rw [hclean]
    rw [if_pos (by omega)]
    have htake : (toHexBE 16 (uint64OfInt high) ++ toHexBE 16 (uint64OfInt low)).take 16
        = toHexBE 16 (uint64OfInt high) := by
      rw [← hlenH]
      exact List.take_left _ _
    have hdrop : (toHexBE 16 (uint64OfInt high) ++ toHexBE 16 (uint64OfInt low)).drop
        ((toHexBE 16 (uint64OfInt high) ++ toHexBE 16 (uint64OfInt low)).length - 16)
        = toHexBE 16 (uint64OfInt low) := by
      rw [hlen]
      show (toHexBE 16 (uint64OfInt high) ++ toHexBE 16 (uint64OfInt low)).drop 16
        = toHexBE 16 (uint64OfInt low)
      rw [← hlenH]
      exact List.drop_left _ _
    rw [htake, hdrop, strtoui64Hex_toHexBE, strtoui64Hex_toHexBE]
    have hm : (16 : Nat) ^ 16 = 2 ^ 64 := by norm_num
    simp only [Nat.zero_mul, Nat.zero_add, hm, Nat.mod_eq_of_lt huhigh,
      Nat.mod_eq_of_lt hulow, int64OfUInt_uint64OfInt low h1 h2,
      int64OfUInt_uint64OfInt high h3 h4]
  · unfold idToString
    simp [List.length_append, hlenH, hlenL]
  · rfl
  · intro c hc
    unfold idToString at hc
    simp only [List.drop_succ_cons, List.drop_zero] at hc
    rcases List.mem_append.mp hc with hc | hc
    · exact mem_toHexBE_upper _ _ c hc
    · exact mem_toHexBE_upper _ _ c hc

/-- Witness for C10 at a negative and a positive half. -/
theorem dialogue_id_roundtrip_witness :
    idFromString (idToString { Low := -5, High := 7 }) = { Low := -5, High := 7 } ∧
    (idToString { Low := -5, High := 7 }).length = 34 ∧
    (idToString { Low := -5, High := 7 }).take 2 = ['0', 'x'] ∧
    (∀ c ∈ (idToString { Low := -5, High := 7 }).drop 2, IsUpperHexDigit c) :=
  dialogue_id_tostring_fromstring_roundtrip (-5) 7
    (by norm_num) (by norm_num) (by norm_num) (by norm_num)

end DialogueEditor
